import Mathlib

/-!
Verification of the lean-bindgen repository.

The repository holds a hand-written FFI adapter (src/c/ffi.c), the header it
adapts (src/tests/e2e/c/simple_math.h), a toy handle library
(src/tests/e2e/c/handle_lib.c) and a fixture header (src/tests/headers/mixed_api.h).
The generator core described by the specification (parser, type mapper, emitter,
driver) is not present in the sources; its model below is written from the
specification and marked as such.
-/

namespace Bindgen

/-! ### Embedding of src/c/ffi.c

The adapter converts between the 32-bit unsigned representation used by the
host FFI and the plain C int used by the library.  A uint32_t value is a
natural number below 2^32; the C cast to int reinterprets it in two's
complement, and the cast back reduces modulo 2^32. -/

/-- Embedding of the C cast (int)a applied to a uint32_t value, two's
complement reinterpretation of a number below 2^32. -/
def int_of_uint32 (n : Nat) : Int :=
  if n < 2 ^ 31 then (n : Int) else (n : Int) - 2 ^ 32

/-- Embedding of the C cast (uint32_t)i applied to an int value: reduction
modulo 2^32. -/
def uint32_of_int (i : Int) : Nat :=
  (i % 2 ^ 32).toNat

/-- Embedding of lean_simple_math_add from src/c/ffi.c.  The library function
add is declared in simple_math.h but defined outside the repository, so the
adapter is parameterised by it: the body is exactly
return (uint32_t)add((int)a, (int)b). -/
def lean_simple_math_add (add : Int → Int → Int) (a b : Nat) : Nat :=
  uint32_of_int (add (int_of_uint32 a) (int_of_uint32 b))

/-! ### Embedding of src/tests/e2e/c/handle_lib.c

The handle library is modelled over an explicit heap: a list of C-string
cells and a list of handle-struct cells.  Addresses are list indices; freeing
a cell marks it dead.  A handle cell stores the name pointer of the struct
(none models a NULL char pointer, as stored when strdup fails). -/

/-- Memory cell: live with a value, or freed/unallocated. -/
inductive Cell (α : Type) where
  | dead : Cell α
  | live : α → Cell α
deriving DecidableEq

/-- Heap for the handle library: string cells and handle cells. -/
structure Mem where
  strings : List (Cell String)
  handles : List (Cell (Option Nat))
deriving DecidableEq

/-- Result of running a piece of C code: a value, or undefined behaviour
(null or invalid dereference, invalid free). -/
inductive CResult (α : Type) where
  | ok : α → CResult α
  | ub : CResult α
deriving DecidableEq

/-- Read a cell that must be live; a dead or out-of-range cell yields none. -/
def getLive {α : Type} (l : List (Cell α)) (p : Nat) : Option α :=
  match l.get? p with
  | some (.live v) => some v
  | _ => none

/-- Embedding of handle_create from handle_lib.c, parameterised by whether
malloc and strdup fail.  The source is
h = malloc(sizeof(handle)); h->name = strdup(name); return h;
with no null check: when malloc yields NULL the write h->name dereferences
NULL (undefined behaviour); when strdup yields NULL the handle stores a NULL
name pointer.  Reading the source string through an invalid pointer is also
undefined behaviour. -/
def handle_createA (mFail sFail : Bool) (m : Mem) (p : Nat) : CResult (Mem × Nat) :=
  if mFail then .ub
  else
    match getLive m.strings p with
    | none => .ub
    | some s =>
      if sFail then
        .ok ({ m with handles := m.handles ++ [.live none] }, m.handles.length)
      else
        .ok ({ strings := m.strings ++ [.live s],
               handles := m.handles ++ [.live (some m.strings.length)] },
             m.handles.length)

/-- Embedding of handle_create on the path where both allocations succeed. -/
def handle_create (m : Mem) (p : Nat) : CResult (Mem × Nat) :=
  handle_createA false false m p

/-- Embedding of handle_name from handle_lib.c: return h->name, the stored
name pointer; dereferencing an invalid handle is undefined behaviour. -/
def handle_name (m : Mem) (h : Nat) : CResult (Option Nat) :=
  match getLive m.handles h with
  | none => .ub
  | some np => .ok np

/-- Embedding of handle_close from handle_lib.c:
free(h->name); free(h); return 0;  Freeing an invalid pointer is undefined
behaviour; free(NULL) is a well-defined no-op. -/
def handle_close (m : Mem) (h : Nat) : CResult (Mem × Int) :=
  match getLive m.handles h with
  | none => .ub
  | some none => .ok ({ m with handles := m.handles.set h .dead }, 0)
  | some (some q) =>
    match getLive m.strings q with
    | none => .ub
    | some _ =>
      .ok ({ strings := m.strings.set q .dead,
             handles := m.handles.set h .dead }, 0)

/-- Overwrite the string buffer at address p, modelling a caller mutating its
own buffer after handle_create returned. -/
def writeStr (m : Mem) (p : Nat) (t : String) : Mem :=
  { m with strings := m.strings.set p (.live t) }

/-! ### Model of the generator core

The C-header-to-FFI-binding generator described by the specification
(Header Parser, Type Mapper, Binding Emitter, Driver) has no sources in the
repository; every definition in this section is modelled from the spec and
says so in its doc comment.  Headers are modelled at the token level: one
list of tokens per semicolon-terminated statement, preprocessor lines and
comments already skipped, as spec section 4.1 prescribes for the parser's
output view. -/

/-- Modelled from the spec: CType (spec section 3), the tagged union
PrimitiveInt / Pointer / OpaquePointer / ConstQualified over parsed C types.
The repository contains no generator sources. -/
inductive CType where
  | primInt (width : Nat) (signed : Bool)
  | ptr (pointee : CType)
  | handlePtr (tag : String)
  | constQ (inner : CType)
deriving DecidableEq

/-- Modelled from the spec: Declaration (spec section 3): a function
prototype, or the registered handle typedef idiom. -/
inductive Declaration where
  | funcDecl (name : String) (params : List (String × CType)) (ret : CType)
  | handleDecl (tag : String)
deriving DecidableEq

/-- Modelled from the spec: the conversion rule of a TypeMapping: explicit
cast in both directions, or passthrough. -/
inductive Conversion where
  | castBoth
  | passthrough
deriving DecidableEq

/-- Modelled from the spec: TypeMapping (spec section 3): target
representation plus conversion rule. -/
structure TypeMapping where
  targetRep : String
  conv : Conversion
deriving DecidableEq

/-- Modelled from the spec: the Type Mapper policy table (spec section 4.2),
a pure function of the CType.  An unrecognized shape is a hard error for the
declaration only. -/
def mapCType : CType → Except String TypeMapping
  | .primInt 32 _ => .ok ⟨"uint32_t", .castBoth⟩
  | .ptr (.primInt 8 _) => .ok ⟨"const char *", .passthrough⟩
  | .handlePtr tag => .ok ⟨tag ++ " *", .passthrough⟩
  | .constQ t => mapCType t
  | _ => .error "unknown type"

/-- Modelled from the spec: render a CType as C source text, used for the
explicit casts in emitted adapter bodies. -/
def renderCType : CType → String
  | .primInt w signed =>
    if w = 8 then (if signed then "char" else "unsigned char")
    else if signed then "int" else "unsigned int"
  | .ptr t => renderCType t ++ " *"
  | .handlePtr tag => tag ++ " *"
  | .constQ t => "const " ++ renderCType t

/-- Modelled from the spec: the C expressions an emitted adapter body can be
built from.  Dereference and field access are part of the expression
language so that their absence from generated code is a meaningful
statement. -/
inductive CExpr where
  | ident (x : String)
  | castTo (rep : String) (e : CExpr)
  | deref (e : CExpr)
  | fieldAcc (e : CExpr) (f : String)
deriving DecidableEq

/-- Check that an expression contains no pointer dereference and no field
access. -/
def noDeref : CExpr → Bool
  | .ident _ => true
  | .castTo _ e => noDeref e
  | .deref _ => false
  | .fieldAcc _ _ => false

/-- Render a C expression as source text. -/
def renderCExpr : CExpr → String
  | .ident x => x
  | .castTo rep e => "(" ++ rep ++ ")" ++ renderCExpr e
  | .deref e => "*" ++ renderCExpr e
  | .fieldAcc e f => renderCExpr e ++ "->" ++ f

/-- Modelled from the spec: argument conversion (spec section 4.3): a
castBoth mapping casts the host value to the declared C type, a passthrough
mapping uses the parameter unchanged. -/
def convArg (t : CType) (tm : TypeMapping) (x : String) : CExpr :=
  match tm.conv with
  | .castBoth => .castTo (renderCType t) (.ident x)
  | .passthrough => .ident x

/-- Modelled from the spec: adapter symbol naming, a deterministic function
of the library name and the original symbol (spec section 4.3), matching the
shape of lean_simple_math_add in the seed material. -/
def adapterName (lib n : String) : String :=
  "lean_" ++ lib ++ "_" ++ n

/-- Modelled from the spec: BindingUnit (spec section 3), the emission
result for one declaration, kept structured plus rendered text. -/
structure BindingUnit where
  symbol : String
  origSymbol : String
  paramSig : List (String × String)
  argExprs : List CExpr
  retRep : String
  retConv : Conversion
  text : String
deriving DecidableEq

/-- Map every parameter type, failing on the first unmapped type. -/
def mapParams :
    List (String × CType) → Except String (List ((String × CType) × TypeMapping))
  | [] => .ok []
  | p :: rest =>
    match mapCType p.2, mapParams rest with
    | .ok tm, .ok ms => .ok ((p, tm) :: ms)
    | .error e, _ => .error e
    | .ok _, .error e => .error e

/-- Render the full adapter text for one function. -/
def renderAdapter (retRep sym : String) (sig : List (String × String))
    (retCast orig : String) (args : List CExpr) : String :=
  retRep ++ " " ++ sym ++ "(" ++
    String.intercalate ", " (sig.map (fun pr => pr.1 ++ " " ++ pr.2)) ++
    ") \x7b return " ++ retCast ++ orig ++ "(" ++
    String.intercalate ", " (args.map renderCExpr) ++ "); \x7d"

/-- Modelled from the spec: the Binding Emitter (spec section 4.3): map all
parameter and return types, then emit one adapter that converts each
argument, delegates to the original symbol, and converts the result. -/
def emitFunc (lib n : String) (ps : List (String × CType)) (ret : CType) :
    Except String BindingUnit :=
  match mapParams ps, mapCType ret with
  | .ok ms, .ok rtm =>
    .ok { symbol := adapterName lib n,
          origSymbol := n,
          paramSig := ms.map (fun q => (q.2.targetRep, q.1.1)),
          argExprs := ms.map (fun q => convArg q.1.2 q.2 q.1.1),
          retRep := rtm.targetRep,
          retConv := rtm.conv,
          text := renderAdapter rtm.targetRep (adapterName lib n)
            (ms.map (fun q => (q.2.targetRep, q.1.1)))
            (match rtm.conv with
             | .castBoth => "(" ++ rtm.targetRep ++ ")"
             | .passthrough => "")
            n (ms.map (fun q => convArg q.1.2 q.2 q.1.1)) }
  | .error e, _ => .error e
  | .ok _, .error e => .error e

/-- Modelled from the spec: count leading star tokens of a declarator. -/
def countStars : List String → Nat × List String
  | "*" :: rest =>
    let r := countStars rest
    (r.1 + 1, r.2)
  | toks => (0, toks)

/-- Modelled from the spec: the base type read before the stars, either a
primitive or a registered struct tag. -/
inductive BaseTy where
  | prim (t : CType)
  | tagged (tag : String)
deriving DecidableEq

/-- Modelled from the spec: parse the base type tokens (spec section 4.1); a
bare identifier is accepted only when registered as a handle tag, anything
else is an unknown type. -/
def parseBase (tags : List String) : List String → Except String (BaseTy × List String)
  | "int" :: rest => .ok (.prim (.primInt 32 true), rest)
  | "unsigned" :: "int" :: rest => .ok (.prim (.primInt 32 false), rest)
  | "char" :: rest => .ok (.prim (.primInt 8 true), rest)
  | t :: rest =>
    if tags.contains t then .ok (.tagged t, rest)
    else .error ("unknown type " ++ t)
  | [] => .error "missing type"

/-- Wrap n pointer levels around a type. -/
def starsWrap (t : CType) : Nat → CType
  | 0 => t
  | n + 1 => .ptr (starsWrap t n)

/-- Modelled from the spec: attach the parsed stars.  A registered tag is
only usable through a pointer: the first star makes the opaque handle
pointer; a struct passed by value is a hard error. -/
def mkPtrs (b : BaseTy) (stars : Nat) : Except String CType :=
  match b, stars with
  | .prim t, n => .ok (starsWrap t n)
  | .tagged tag, 0 => .error ("unknown type " ++ tag)
  | .tagged tag, n + 1 => .ok (starsWrap (.handlePtr tag) n)

/-- Modelled from the spec: parse one C type from the front of a token
list, wrapping a leading const qualifier as ConstQualified (spec section 3
invariant for const char pointers). -/
def parseCTy (tags : List String) (toks : List String) :
    Except String (CType × List String) :=
  match toks with
  | "const" :: rest =>
    match parseBase tags rest with
    | .error e => .error e
    | .ok (b, r1) =>
      match mkPtrs b (countStars r1).1 with
      | .error e => .error e
      | .ok t => .ok (.constQ t, (countStars r1).2)
  | _ =>
    match parseBase tags toks with
    | .error e => .error e
    | .ok (b, r1) =>
      match mkPtrs b (countStars r1).1 with
      | .error e => .error e
      | .ok t => .ok (t, (countStars r1).2)

/-- Split parameter tokens at comma tokens. -/
def splitCommas : List String → List (List String)
  | [] => [[]]
  | "," :: rest => [] :: splitCommas rest
  | t :: rest =>
    match splitCommas rest with
    | g :: gs => (t :: g) :: gs
    | [] => [[t]]

/-- Modelled from the spec: parse one parameter, a type followed by an
optional name.  A variadic ellipsis or any other unrecognized token is a
hard error for the declaration. -/
def parseParam (tags : List String) (toks : List String) :
    Except String (String × CType) :=
  match parseCTy tags toks with
  | .error e => .error e
  | .ok (t, rest) =>
    match rest with
    | [] => .ok ("", t)
    | [x] => .ok (x, t)
    | _ => .error "malformed parameter"

/-- Map parseParam across the comma-separated parameter groups. -/
def parseParamList (tags : List String) :
    List (List String) → Except String (List (String × CType))
  | [] => .ok []
  | g :: gs =>
    match parseParam tags g, parseParamList tags gs with
    | .ok p, .ok ps => .ok (p :: ps)
    | .error e, _ => .error e
    | .ok _, .error e => .error e

/-- Modelled from the spec: the Header Parser for one statement (spec
section 4.1): the handle idiom typedef struct TAG TAG, or a function
prototype RetType name(Params); anything else is a diagnostic. -/
def parseStmt (tags : List String) (toks : List String) :
    Except String Declaration :=
  match toks with
  | ["typedef", "struct", t1, t2] =>
    if t1 = t2 then .ok (.handleDecl t1) else .error "malformed typedef"
  | _ =>
    match parseCTy tags toks with
    | .error e => .error e
    | .ok (ret, rest) =>
      match rest with
      | n :: "(" :: more =>
        if more.getLast? = some ")" then
          match (if more.dropLast.isEmpty then .ok []
                 else parseParamList tags (splitCommas more.dropLast)) with
          | .error e => .error e
          | .ok ps => .ok (.funcDecl n ps ret)
        else .error "malformed declaration"
      | _ => .error "malformed declaration"

/-- Modelled from the spec: the run-scoped generator state (spec section 5):
the append-only registry of handle tags, and the adapter symbols already
emitted, used for duplicate detection. -/
structure GenState where
  tags : List String
  syms : List String
deriving DecidableEq

/-- Modelled from the spec: process one statement (spec sections 4.3, 4.4):
parse it, register a handle typedef, or map and emit a function, rejecting a
duplicate adapter symbol.  A failing statement leaves the state unchanged. -/
def step (lib : String) (st : GenState) (toks : List String) :
    Except String (GenState × Option BindingUnit) :=
  match parseStmt st.tags toks with
  | .error e => .error e
  | .ok (.handleDecl t) => .ok ({ st with tags := st.tags ++ [t] }, none)
  | .ok (.funcDecl n ps ret) =>
    match emitFunc lib n ps ret with
    | .error e => .error e
    | .ok bu =>
      if st.syms.contains bu.symbol then .error ("duplicate symbol " ++ bu.symbol)
      else .ok ({ st with syms := st.syms ++ [bu.symbol] }, some bu)

/-- Modelled from the spec: the Driver (spec section 4.4): process every
statement, collecting one BindingUnit or one diagnostic per statement,
never stopping early on a failure. -/
def runFrom (lib : String) (st : GenState) :
    List (List String) → List BindingUnit × List String
  | [] => ([], [])
  | s :: rest =>
    match step lib st s with
    | .ok (st', ob) =>
      (ob.toList ++ (runFrom lib st' rest).1, (runFrom lib st' rest).2)
    | .error e =>
      ((runFrom lib st rest).1, e :: (runFrom lib st rest).2)

/-- State after processing a list of statements. -/
def stAfter (lib : String) (st : GenState) : List (List String) → GenState
  | [] => st
  | s :: rest =>
    match step lib st s with
    | .ok (st', _) => stAfter lib st' rest
    | .error _ => stAfter lib st rest

/-- True when one statement processes without a diagnostic. -/
def stepOk (lib : String) (st : GenState) (toks : List String) : Bool :=
  match step lib st toks with
  | .ok _ => true
  | .error _ => false

/-- True when every statement processes without a diagnostic. -/
def allOk (lib : String) (st : GenState) : List (List String) → Bool
  | [] => true
  | s :: rest =>
    match step lib st s with
    | .ok (st', _) => allOk lib st' rest
    | .error _ => false

/-- Modelled from the spec: one whole run over a header starts from a fresh
run-scoped state, which is discarded at run end (spec section 5). -/
def run (lib : String) (stmts : List (List String)) :
    List BindingUnit × List String :=
  runFrom lib (GenState.mk [] []) stmts

/-- Modelled from the spec: the generated output file text of one run. -/
def generate (lib : String) (stmts : List (List String)) : String :=
  String.intercalate "\n" ((run lib stmts).1.map BindingUnit.text)

/-- Modelled from the spec: exit status of a run, failure exactly when at
least one diagnostic was produced (spec section 4.4). -/
def exitCode (lib : String) (stmts : List (List String)) : Nat :=
  if (run lib stmts).2.isEmpty then 0 else 1

/-- Modelled from the spec: two successive runs on identical header text,
each starting from a fresh run-scoped state. -/
def runTwice (lib : String) (stmts : List (List String)) : String × String :=
  (generate lib stmts, generate lib stmts)

/-- Modelled from the spec: the parse phase alone, in source order, tagging
each declaration with its statement index and threading the registry
(spec section 4.1). -/
def parseAll (tags : List String) (i : Nat) :
    List (List String) → List (Nat × Declaration)
  | [] => []
  | s :: rest =>
    match parseStmt tags s with
    | .ok (.handleDecl t) => (i, .handleDecl t) :: parseAll (tags ++ [t]) (i + 1) rest
    | .ok d => (i, d) :: parseAll tags (i + 1) rest
    | .error _ => parseAll tags (i + 1) rest

/-- Modelled from the spec: the emission task for a single indexed
declaration, independent of every other declaration (spec section 5). -/
def emitOne (lib : String) (p : Nat × Declaration) : Nat × Option BindingUnit :=
  (p.1,
   match p.2 with
   | .handleDecl _ => none
   | .funcDecl n ps ret => (emitFunc lib n ps ret).toOption)

/-- Index order on indexed results. -/
def idxLE {β : Type} (p q : Nat × β) : Prop := p.1 ≤ q.1

/-- Strict index order on indexed results. -/
def idxLT {β : Type} (p q : Nat × β) : Prop := p.1 < q.1

instance {β : Type} : DecidableRel (@idxLE β) := fun p q => Nat.decLe p.1 q.1

instance {β : Type} : IsTotal (Nat × β) idxLE := ⟨fun p q => Nat.le_total p.1 q.1⟩

instance {β : Type} : IsTrans (Nat × β) idxLE := ⟨fun _ _ _ h1 h2 => Nat.le_trans h1 h2⟩

instance {β : Type} : IsAntisymm (Nat × β) idxLT :=
  ⟨fun _ _ h1 h2 => absurd (Nat.lt_trans h1 h2) (Nat.lt_irrefl _)⟩

/-- Modelled from the spec: collect independently produced results and
re-sort them into source order before writing them out (spec section 5). -/
def sortByIdx {β : Type} (l : List (Nat × β)) : List (Nat × β) :=
  List.insertionSort idxLE l

end Bindgen

namespace Bindgen

/-! ### Helper lemmas for the heap model -/

theorem getLive_append_length {α : Type} (l : List (Cell α)) (v : α) :
    getLive (l ++ [.live v]) l.length = some v := by
  unfold getLive
  rw [List.get?_eq_getElem?, List.getElem?_concat_length]

theorem getLive_lt {α : Type} {l : List (Cell α)} {p : Nat} {v : α}
    (h : getLive l p = some v) : p < l.length := by
  unfold getLive at h
  cases hg : l.get? p with
  | none => rw [hg] at h; exact absurd h (by simp)
  | some c =>
    have := List.get?_eq_some.mp hg
    exact this.1

theorem getLive_set_ne {α : Type} (l : List (Cell α)) (i j : Nat) (c : Cell α)
    (h : i ≠ j) : getLive (l.set i c) j = getLive l j := by
  unfold getLive
  rw [List.get?_eq_getElem?, List.get?_eq_getElem?, List.getElem?_set_ne h]

/-! ### Theorems for claims C1, C2, C8, C9, C10 -/

/-- C1: for every pair of UInt32 inputs a and b, the adapter
lean_simple_math_add returns uint32_of_int (add (int_of_uint32 a)
(int_of_uint32 b)): it casts each unsigned argument to signed int, delegates
to the external add once, casts the signed result back to unsigned and
returns it, never reimplementing the addition itself (add is abstract in the
statement). -/
theorem lean_simple_math_add_delegates (add : Int → Int → Int) (a b : Nat) :
    lean_simple_math_add add a b
      = uint32_of_int (add (int_of_uint32 a) (int_of_uint32 b)) := rfl

/-- C2: for inputs representable in both int32 and uint32, and an external
add whose result is again representable in both, the adapter returns exactly
the value of the direct call: casting to signed and back to unsigned is
lossless in range. -/
theorem lean_simple_math_add_roundtrip (add : Int → Int → Int) (a b : Nat)
    (ha : a < 2 ^ 31) (hb : b < 2 ^ 31)
    (hlo : 0 ≤ add (a : Int) (b : Int)) (hhi : add (a : Int) (b : Int) < 2 ^ 31) :
    (lean_simple_math_add add a b : Int) = add (a : Int) (b : Int) := by
  unfold lean_simple_math_add int_of_uint32 uint32_of_int
  rw [if_pos ha, if_pos hb]
  have h32 : add (a : Int) (b : Int) < 2 ^ 32 := by
    calc add (a : Int) (b : Int) < 2 ^ 31 := hhi
    _ < 2 ^ 32 := by norm_num
  rw [Int.emod_eq_of_lt hlo h32]
  exact Int.toNat_of_nonneg hlo

/-- Witness for C2 at add = integer addition, a = 2, b = 3. -/
theorem lean_simple_math_add_roundtrip_witness :
    (lean_simple_math_add (fun x y => x + y) 2 3 : Int)
      = ((2 : Nat) : Int) + ((3 : Nat) : Int) :=
  lean_simple_math_add_roundtrip (fun x y => x + y) 2 3
    (by decide) (by decide) (by decide) (by decide)

/-- C8: creating a handle from a valid string buffer stores a fresh copy of
the string: handle_name returns a pointer to a cell holding the same string,
and overwriting the caller's buffer afterwards changes neither the pointer
returned by handle_name nor the stored string (strdup made an independent
copy). -/
theorem handle_create_name_roundtrip (m : Mem) (p : Nat) (s : String)
    (hp : getLive m.strings p = some s) (m' : Mem) (h : Nat) (t : String)
    (hc : handle_create m p = .ok (m', h)) :
    ∃ q, handle_name m' h = .ok (some q)
      ∧ getLive m'.strings q = some s
      ∧ handle_name (writeStr m' p t) h = .ok (some q)
      ∧ getLive (writeStr m' p t).strings q = some s := by
  have hc' : CResult.ok ((Mem.mk (m.strings ++ [.live s])
        (m.handles ++ [.live (some m.strings.length)]),
        m.handles.length) : Mem × Nat) = CResult.ok ((m', h) : Mem × Nat) := by
    rw [← hc]
    simp [handle_create, handle_createA, hp]
  cases hc'
  refine ⟨m.strings.length, ?_, ?_, ?_, ?_⟩
  · unfold handle_name
    rw [getLive_append_length]
  · exact getLive_append_length m.strings s
  · unfold handle_name writeStr
    rw [getLive_append_length]
  · unfold writeStr
    have hne : p ≠ m.strings.length := Nat.ne_of_lt (getLive_lt hp)
    have := getLive_set_ne (m.strings ++ [.live s]) p m.strings.length (.live t) hne
    rw [this]
    exact getLive_append_length m.strings s

/-- Witness for C8 on a one-string heap. -/
theorem handle_create_name_roundtrip_witness :
    ∃ q, handle_name (Mem.mk [Cell.live "db", Cell.live "db"] [Cell.live (some 1)]) 0
          = .ok (some q)
      ∧ getLive (Mem.mk [Cell.live "db", Cell.live "db"] [Cell.live (some 1)]).strings q
          = some "db"
      ∧ handle_name (writeStr (Mem.mk [Cell.live "db", Cell.live "db"] [Cell.live (some 1)]) 0 "x") 0
          = .ok (some q)
      ∧ getLive (writeStr (Mem.mk [Cell.live "db", Cell.live "db"] [Cell.live (some 1)]) 0 "x").strings q
          = some "db" :=
  handle_create_name_roundtrip (Mem.mk [Cell.live "db"] []) 0 "db" rfl
    (Mem.mk [Cell.live "db", Cell.live "db"] [Cell.live (some 1)]) 0 "x" rfl

/-- C9: handle_close has no failure path in its return value: every handle
produced by handle_create closes successfully with return value 0, and in
general whenever handle_close returns at all it returns 0. -/
theorem handle_close_returns_zero (m : Mem) (p : Nat) (s : String)
    (hp : getLive m.strings p = some s) (m' : Mem) (h : Nat)
    (hc : handle_create m p = .ok (m', h)) :
    (∃ m'', handle_close m' h = .ok (m'', 0))
      ∧ ∀ (m₀ : Mem) (h₀ : Nat) (r : Mem × Int),
          handle_close m₀ h₀ = .ok r → r.2 = 0 := by
  constructor
  · have hc' : CResult.ok ((Mem.mk (m.strings ++ [.live s])
          (m.handles ++ [.live (some m.strings.length)]),
          m.handles.length) : Mem × Nat) = CResult.ok ((m', h) : Mem × Nat) := by
      rw [← hc]
      simp [handle_create, handle_createA, hp]
    cases hc'
    exact ⟨Mem.mk ((m.strings ++ [Cell.live s]).set m.strings.length Cell.dead)
        ((m.handles ++ [Cell.live (some m.strings.length)]).set m.handles.length Cell.dead),
      by simp [handle_close, getLive_append_length]⟩
  · intro m₀ h₀ r hr
    unfold handle_close at hr
    split at hr
    · cases hr
    · cases hr; rfl
    · split at hr
      · cases hr
      · cases hr; rfl

/-- Witness for C9 on a one-string heap. -/
theorem handle_close_returns_zero_witness :
    (∃ m'', handle_close (Mem.mk [Cell.live "db", Cell.live "db"] [Cell.live (some 1)]) 0
        = .ok (m'', 0))
      ∧ ∀ (m₀ : Mem) (h₀ : Nat) (r : Mem × Int),
          handle_close m₀ h₀ = .ok r → r.2 = 0 :=
  handle_close_returns_zero (Mem.mk [Cell.live "db"] []) 0 "db" rfl
    (Mem.mk [Cell.live "db", Cell.live "db"] [Cell.live (some 1)]) 0 rfl

/-- C10: handle_create dereferences the result of malloc without a null
check: on every input where malloc fails the run is undefined behaviour (the
guard is absent), and the function is total, returning a handle, exactly
under the precondition that the allocations succeed and the source string is
valid. -/
theorem handle_create_no_null_check :
    (∀ (sF : Bool) (m : Mem) (p : Nat), handle_createA true sF m p = .ub)
      ∧ ∀ (m : Mem) (p : Nat) (s : String), getLive m.strings p = some s →
          ∃ m' h, handle_createA false false m p = .ok (m', h) := by
  constructor
  · intro sF m p
    rfl
  · intro m p s hp
    exact ⟨{ strings := m.strings ++ [.live s],
             handles := m.handles ++ [.live (some m.strings.length)] },
           m.handles.length, by simp [handle_createA, hp]⟩

/-- Witness for C10: malloc failure on an empty heap is undefined behaviour,
and creation on a valid one-string heap succeeds. -/
theorem handle_create_no_null_check_witness :
    handle_createA true false (Mem.mk [] []) 0 = .ub
      ∧ ∃ m' h, handle_createA false false (Mem.mk [Cell.live "a"] []) 0
          = .ok (m', h) :=
  ⟨handle_create_no_null_check.1 false (Mem.mk [] []) 0,
   handle_create_no_null_check.2 (Mem.mk [Cell.live "a"] []) 0 "a" rfl⟩

/-! ### Helper lemmas for the generator model -/

theorem mapParams_fst (ps : List (String × CType))
    (ms : List ((String × CType) × TypeMapping)) (h : mapParams ps = .ok ms) :
    ms.map Prod.fst = ps := by
  induction ps generalizing ms with
  | nil =>
    unfold mapParams at h
    cases h
    rfl
  | cons p rest ih =>
    unfold mapParams at h
    cases hm : mapCType p.2 with
    | error e => rw [hm] at h; cases h
    | ok tm =>
      rw [hm] at h
      cases hr : mapParams rest with
      | error e => rw [hr] at h; cases h
      | ok ms' =>
        rw [hr] at h
        cases h
        simp [ih ms' hr]

theorem mapParams_maps (ps : List (String × CType))
    (ms : List ((String × CType) × TypeMapping)) (h : mapParams ps = .ok ms) :
    ∀ q ∈ ms, mapCType q.1.2 = .ok q.2 := by
  induction ps generalizing ms with
  | nil =>
    unfold mapParams at h
    cases h
    intro q hq
    cases hq
  | cons p rest ih =>
    unfold mapParams at h
    cases hm : mapCType p.2 with
    | error e => rw [hm] at h; cases h
    | ok tm =>
      rw [hm] at h
      cases hr : mapParams rest with
      | error e => rw [hr] at h; cases h
      | ok ms' =>
        rw [hr] at h
        cases h
        intro q hq
        rcases List.mem_cons.mp hq with h1 | h1
        · subst h1; exact hm
        · exact ih ms' hr q h1

theorem noDeref_convArg (t : CType) (tm : TypeMapping) (x : String) :
    noDeref (convArg t tm x) = true := by
  cases h : tm.conv <;> simp [convArg, h, noDeref]

theorem runFrom_append (lib : String) (st : GenState)
    (xs ys : List (List String)) :
    runFrom lib st (xs ++ ys)
      = ((runFrom lib st xs).1 ++ (runFrom lib (stAfter lib st xs) ys).1,
         (runFrom lib st xs).2 ++ (runFrom lib (stAfter lib st xs) ys).2) := by
  induction xs generalizing st with
  | nil => simp [runFrom, stAfter]
  | cons s rest ih =>
    cases h : step lib st s with
    | ok p =>
      obtain ⟨st', ob⟩ := p
      simp [runFrom, stAfter, h, ih st']
    | error e =>
      simp [runFrom, stAfter, h, ih st]

theorem allOk_diags (lib : String) (st : GenState) (xs : List (List String))
    (h : allOk lib st xs = true) : (runFrom lib st xs).2 = [] := by
  induction xs generalizing st with
  | nil => simp [runFrom]
  | cons s rest ih =>
    cases hs : step lib st s with
    | ok p =>
      obtain ⟨st', ob⟩ := p
      simp only [allOk, hs] at h
      simp [runFrom, hs, ih st' h]
    | error e =>
      simp only [allOk, hs] at h
      exact Bool.noConfusion h

theorem stepOk_false_error (lib : String) (st : GenState) (toks : List String)
    (h : stepOk lib st toks = false) : ∃ e, step lib st toks = .error e := by
  unfold stepOk at h
  cases hs : step lib st toks with
  | ok p => rw [hs] at h; cases h
  | error e => exact ⟨e, rfl⟩

theorem parseAll_bound_pairwise (stmts : List (List String)) (tags : List String)
    (i : Nat) :
    (∀ p ∈ parseAll tags i stmts, i ≤ p.1)
      ∧ (parseAll tags i stmts).Pairwise idxLT := by
  induction stmts generalizing tags i with
  | nil => simp [parseAll]
  | cons s rest ih =>
    cases hs : parseStmt tags s with
    | error e =>
      simp only [parseAll, hs]
      exact ⟨fun p hp => Nat.le_of_succ_le ((ih tags (i + 1)).1 p hp),
             (ih tags (i + 1)).2⟩
    | ok d =>
      cases d with
      | handleDecl t =>
        simp only [parseAll, hs]
        refine ⟨?_, ?_⟩
        · intro p hp
          rcases List.mem_cons.mp hp with h1 | h1
          · subst h1; exact Nat.le_refl i
          · exact Nat.le_of_succ_le ((ih (tags ++ [t]) (i + 1)).1 p h1)
        · exact List.Pairwise.cons
            (fun q hq => (ih (tags ++ [t]) (i + 1)).1 q hq)
            (ih (tags ++ [t]) (i + 1)).2
      | funcDecl n ps ret =>
        simp only [parseAll, hs]
        refine ⟨?_, ?_⟩
        · intro p hp
          rcases List.mem_cons.mp hp with h1 | h1
          · subst h1; exact Nat.le_refl i
          · exact Nat.le_of_succ_le ((ih tags (i + 1)).1 p h1)
        · exact List.Pairwise.cons
            (fun q hq => (ih tags (i + 1)).1 q hq)
            (ih tags (i + 1)).2

/-! ### Theorems for claims C3, C4, C5, C6, C7 -/

/-- C3: every adapter the emitter produces for a function whose parameter or
return type is an opaque handle passes the handle through unchanged: the
argument expression for a handle-typed parameter is exactly the parameter
name, a handle return is passthrough, and no emitted argument expression
contains a field access or a pointer dereference. -/
theorem emit_handle_passthrough (lib n : String) (ps : List (String × CType))
    (ret : CType) (bu : BindingUnit) (hemit : emitFunc lib n ps ret = .ok bu) :
    bu.argExprs.length = ps.length
      ∧ (∀ (i : Nat) (p : String × CType), ps.get? i = some p →
          (∃ tag, p.2 = CType.handlePtr tag) →
          bu.argExprs.get? i = some (CExpr.ident p.1))
      ∧ (∀ tag : String, ret = CType.handlePtr tag →
          bu.retConv = Conversion.passthrough)
      ∧ (∀ e ∈ bu.argExprs, noDeref e = true) := by
  unfold emitFunc at hemit
  cases hms : mapParams ps with
  | error e => rw [hms] at hemit; cases hemit
  | ok ms =>
    rw [hms] at hemit
    cases hrt : mapCType ret with
    | error e => rw [hrt] at hemit; cases hemit
    | ok rtm =>
      rw [hrt] at hemit
      cases hemit
      have hfst := mapParams_fst ps ms hms
      refine ⟨?_, ?_, ?_, ?_⟩
      · show (ms.map fun q => convArg q.1.2 q.2 q.1.1).length = ps.length
        rw [← hfst]
        simp
      · intro i p hp htag
        obtain ⟨tag, htag⟩ := htag
        have hp' : (ms.map Prod.fst).get? i = some p := by rw [hfst]; exact hp
        rw [List.get?_map] at hp'
        cases hq : ms.get? i with
        | none => rw [hq] at hp'; cases hp'
        | some q =>
          rw [hq] at hp'
          have hq1 : q.1 = p := by
            simpa using hp'
          have hmem : q ∈ ms := List.get?_mem hq
          have hmap := mapParams_maps ps ms hms q hmem
          rw [hq1, htag] at hmap
          have hq2 : q.2 = TypeMapping.mk (tag ++ " *") Conversion.passthrough := by
            have h' : Except.ok (ε := String)
                (TypeMapping.mk (tag ++ " *") Conversion.passthrough) = .ok q.2 := hmap
            injection h' with h2
            exact h2.symm
          show (ms.map fun q => convArg q.1.2 q.2 q.1.1).get? i
              = some (CExpr.ident p.1)
          rw [List.get?_map, hq]
          simp [convArg, hq2, hq1, htag]
      · intro tag hret
        subst hret
        have h' : Except.ok (ε := String)
            (TypeMapping.mk (tag ++ " *") Conversion.passthrough) = .ok rtm := hrt
        injection h' with h2
        rw [← h2]
      · intro e he
        simp only [List.mem_map] at he
        obtain ⟨q, _, hq⟩ := he
        rw [← hq]
        exact noDeref_convArg q.1.2 q.2 q.1.1

/-- Witness for C3 on the db_close declaration of the fixture header. -/
theorem emit_handle_passthrough_witness :
    ∃ bu, emitFunc "db" "db_close" [("conn", CType.handlePtr "db_conn")]
        (CType.primInt 32 true) = .ok bu
      ∧ bu.argExprs.get? 0 = some (CExpr.ident "conn")
      ∧ ∀ e ∈ bu.argExprs, noDeref e = true :=
  ⟨_, rfl,
   (emit_handle_passthrough "db" "db_close" [("conn", CType.handlePtr "db_conn")]
      (CType.primInt 32 true) _ rfl).2.1 0 ("conn", CType.handlePtr "db_conn")
      rfl ⟨"db_conn", rfl⟩,
   (emit_handle_passthrough "db" "db_close" [("conn", CType.handlePtr "db_conn")]
      (CType.primInt 32 true) _ rfl).2.2.2⟩

/-- C4: a header holding one failing declaration among otherwise valid ones
yields exactly one diagnostic, and the bindings of every valid declaration,
before and after the failing one, are still produced. -/
theorem driver_fail_soft (lib : String) (st : GenState)
    (pre : List (List String)) (bad : List String) (post : List (List String))
    (hpre : allOk lib st pre = true)
    (hbad : stepOk lib (stAfter lib st pre) bad = false)
    (hpost : allOk lib (stAfter lib st pre) post = true) :
    (runFrom lib st (pre ++ bad :: post)).2.length = 1
      ∧ (runFrom lib st (pre ++ bad :: post)).1
          = (runFrom lib st pre).1 ++ (runFrom lib (stAfter lib st pre) post).1 := by
  obtain ⟨e, he⟩ := stepOk_false_error lib (stAfter lib st pre) bad hbad
  rw [runFrom_append]
  constructor
  · simp [allOk_diags lib st pre hpre, runFrom, he,
      allOk_diags lib (stAfter lib st pre) post hpost]
  · simp [runFrom, he]

/-- Witness for C4: a variadic declaration between two valid declarations of
the fixture header produces one diagnostic and both other bindings. -/
theorem driver_fail_soft_witness :
    (runFrom "db" (GenState.mk [] [])
        ([["typedef", "struct", "db_conn", "db_conn"],
          ["db_conn", "*", "db_open", "(", "const", "char", "*", "path", ")"]]
          ++ ["int", "db_log", "(", "db_conn", "*", "c", ",", "...", ")"]
          :: [["int", "db_close", "(", "db_conn", "*", "conn", ")"]])).2.length = 1
      ∧ (runFrom "db" (GenState.mk [] [])
          ([["typedef", "struct", "db_conn", "db_conn"],
            ["db_conn", "*", "db_open", "(", "const", "char", "*", "path", ")"]]
            ++ ["int", "db_log", "(", "db_conn", "*", "c", ",", "...", ")"]
            :: [["int", "db_close", "(", "db_conn", "*", "conn", ")"]])).1
          = (runFrom "db" (GenState.mk [] [])
              [["typedef", "struct", "db_conn", "db_conn"],
               ["db_conn", "*", "db_open", "(", "const", "char", "*", "path", ")"]]).1
            ++ (runFrom "db"
                (stAfter "db" (GenState.mk [] [])
                  [["typedef", "struct", "db_conn", "db_conn"],
                   ["db_conn", "*", "db_open", "(", "const", "char", "*", "path", ")"]])
                [["int", "db_close", "(", "db_conn", "*", "conn", ")"]]).1 :=
  driver_fail_soft "db" (GenState.mk [] [])
    [["typedef", "struct", "db_conn", "db_conn"],
     ["db_conn", "*", "db_open", "(", "const", "char", "*", "path", ")"]]
    ["int", "db_log", "(", "db_conn", "*", "c", ",", "...", ")"]
    [["int", "db_close", "(", "db_conn", "*", "conn", ")"]]
    rfl rfl rfl

/-- C5: the exit status of a run is failure exactly when at least one
diagnostic was produced, and a failing declaration anywhere in the header
leaves the bindings of the other declarations exactly as if the failing
declaration were absent: partial successful output is still emitted. -/
theorem driver_exit_status (lib : String) (stmts : List (List String))
    (st : GenState) (pre : List (List String)) (bad : List String)
    (post : List (List String))
    (hbad : stepOk lib (stAfter lib st pre) bad = false) :
    (exitCode lib stmts = 1 ↔ (run lib stmts).2 ≠ [])
      ∧ (exitCode lib stmts = 0 ↔ (run lib stmts).2 = [])
      ∧ (runFrom lib st (pre ++ bad :: post)).1
          = (runFrom lib st (pre ++ post)).1 := by
  obtain ⟨e, he⟩ := stepOk_false_error lib (stAfter lib st pre) bad hbad
  refine ⟨?_, ?_, ?_⟩
  · cases h : (run lib stmts).2 with
    | nil => simp [exitCode, h]
    | cons d ds => simp [exitCode, h]
  · cases h : (run lib stmts).2 with
    | nil => simp [exitCode, h]
    | cons d ds => simp [exitCode, h]
  · rw [runFrom_append, runFrom_append]
    simp [runFrom, he]

/-- Witness for C5 on the fixture header with a variadic declaration. -/
theorem driver_exit_status_witness :
    (exitCode "db" [["typedef", "struct", "db_conn", "db_conn"],
        ["int", "db_log", "(", "db_conn", "*", "c", ",", "...", ")"]] = 1
      ↔ (run "db" [["typedef", "struct", "db_conn", "db_conn"],
          ["int", "db_log", "(", "db_conn", "*", "c", ",", "...", ")"]]).2 ≠ [])
      ∧ (exitCode "db" [["typedef", "struct", "db_conn", "db_conn"],
          ["int", "db_log", "(", "db_conn", "*", "c", ",", "...", ")"]] = 0
        ↔ (run "db" [["typedef", "struct", "db_conn", "db_conn"],
            ["int", "db_log", "(", "db_conn", "*", "c", ",", "...", ")"]]).2 = [])
      ∧ (runFrom "db" (GenState.mk [] [])
          ([["typedef", "struct", "db_conn", "db_conn"]]
            ++ ["int", "db_log", "(", "db_conn", "*", "c", ",", "...", ")"]
            :: [["int", "db_close", "(", "db_conn", "*", "conn", ")"]])).1
        = (runFrom "db" (GenState.mk [] [])
            ([["typedef", "struct", "db_conn", "db_conn"]]
              ++ [["int", "db_close", "(", "db_conn", "*", "conn", ")"]])).1 :=
  driver_exit_status "db"
    [["typedef", "struct", "db_conn", "db_conn"],
     ["int", "db_log", "(", "db_conn", "*", "c", ",", "...", ")"]]
    (GenState.mk [] [])
    [["typedef", "struct", "db_conn", "db_conn"]]
    ["int", "db_log", "(", "db_conn", "*", "c", ",", "...", ")"]
    [["int", "db_close", "(", "db_conn", "*", "conn", ")"]]
    rfl

/-- C6: the generator is deterministic: two runs on identical header text,
each from a fresh run-scoped state, produce byte-identical output text, and
the type mapping is a pure function of the CType, so equal CTypes always map
identically within one run. -/
theorem generator_deterministic (lib : String) (stmts : List (List String)) :
    (runTwice lib stmts).1 = (runTwice lib stmts).2
      ∧ ∀ t u : CType, t = u → mapCType t = mapCType u :=
  ⟨rfl, fun _ _ h => by rw [h]⟩

/-- Witness for C6 on the simple_math header. -/
theorem generator_deterministic_witness :
    (runTwice "simple_math" [["int", "add", "(", "int", "a", ",", "int", "b", ")"]]).1
      = (runTwice "simple_math" [["int", "add", "(", "int", "a", ",", "int", "b", ")"]]).2
      ∧ mapCType (CType.primInt 32 true) = mapCType (CType.primInt 32 true) :=
  ⟨(generator_deterministic "simple_math"
      [["int", "add", "(", "int", "a", ",", "int", "b", ")"]]).1,
   (generator_deterministic "simple_math"
      [["int", "add", "(", "int", "a", ",", "int", "b", ")"]]).2
      (CType.primInt 32 true) (CType.primInt 32 true) rfl⟩

/-- C7: the parser's output sequence is in source order (its statement
indices are strictly increasing), and whatever internal order the
independent emission tasks are processed in (any permutation of the parsed
declarations), re-sorting the results by source index yields exactly the
source-order emission sequence. -/
theorem emit_source_order (lib : String) (stmts : List (List String))
    (l : List (Nat × Declaration))
    (hperm : l.Perm (parseAll [] 0 stmts)) :
    (parseAll [] 0 stmts).Pairwise idxLT
      ∧ sortByIdx (l.map (emitOne lib)) = (parseAll [] 0 stmts).map (emitOne lib) := by
  have hkeys := (parseAll_bound_pairwise stmts [] 0).2
  refine ⟨hkeys, ?_⟩
  have hes : ((parseAll [] 0 stmts).map (emitOne lib)).Pairwise idxLT := by
    rw [List.pairwise_map]
    exact hkeys.imp (fun {a b} h => h)
  have hperm2 : (l.map (emitOne lib)).Perm ((parseAll [] 0 stmts).map (emitOne lib)) :=
    hperm.map (emitOne lib)
  have hsortperm : (sortByIdx (l.map (emitOne lib))).Perm
      ((parseAll [] 0 stmts).map (emitOne lib)) :=
    (List.perm_insertionSort idxLE (l.map (emitOne lib))).trans hperm2
  have hsorted : (sortByIdx (l.map (emitOne lib))).Pairwise idxLE :=
    List.sorted_insertionSort idxLE (l.map (emitOne lib))
  have hnodup : (((parseAll [] 0 stmts).map (emitOne lib)).map Prod.fst).Nodup := by
    rw [List.nodup_iff_sublist]
    intro a ha
    have : (((parseAll [] 0 stmts).map (emitOne lib)).map Prod.fst).Pairwise (· < ·) := by
      rw [List.pairwise_map]
      exact hes.imp (fun {a b} h => h)
    exact absurd (List.Pairwise.sublist ha this) (by simp [Nat.lt_irrefl])
  have hnodup2 : ((sortByIdx (l.map (emitOne lib))).map Prod.fst).Nodup :=
    ((hsortperm.map Prod.fst).nodup_iff).mpr hnodup
  have hne : (sortByIdx (l.map (emitOne lib))).Pairwise
      (fun p q => p.1 ≠ q.1) := by
    rw [← List.pairwise_map (f := Prod.fst)]
    exact hnodup2.imp (fun {a b} h => h)
  have hsortedLT : (sortByIdx (l.map (emitOne lib))).Pairwise idxLT :=
    (hsorted.and hne).imp (fun {a b} h => Nat.lt_of_le_of_ne h.1 h.2)
  exact List.eq_of_perm_of_sorted hsortperm hsortedLT hes

/-- Witness for C7: the three declarations of a small header, handed to the
emitter in a rotated internal order, re-sort to the source-order output. -/
theorem emit_source_order_witness :
    (parseAll [] 0 [["typedef", "struct", "h", "h"],
        ["int", "f", "(", "int", "x", ")"],
        ["int", "g", "(", "int", "y", ")"]]).Pairwise idxLT
      ∧ sortByIdx (([((2 : Nat), Declaration.funcDecl "g"
            [("y", CType.primInt 32 true)] (CType.primInt 32 true)),
          ((0 : Nat), Declaration.handleDecl "h"),
          ((1 : Nat), Declaration.funcDecl "f"
            [("x", CType.primInt 32 true)] (CType.primInt 32 true))]).map (emitOne "lib"))
        = (parseAll [] 0 [["typedef", "struct", "h", "h"],
            ["int", "f", "(", "int", "x", ")"],
            ["int", "g", "(", "int", "y", ")"]]).map (emitOne "lib") :=
  emit_source_order "lib"
    [["typedef", "struct", "h", "h"],
     ["int", "f", "(", "int", "x", ")"],
     ["int", "g", "(", "int", "y", ")"]]
    [((2 : Nat), Declaration.funcDecl "g"
        [("y", CType.primInt 32 true)] (CType.primInt 32 true)),
     ((0 : Nat), Declaration.handleDecl "h"),
     ((1 : Nat), Declaration.funcDecl "f"
        [("x", CType.primInt 32 true)] (CType.primInt 32 true))]
    (by decide)

end Bindgen
